import Mathlib

/-!
Shallow embedding of the transactional execution engine of
opennode/oms/zodb/db.py (the transact / ro_transact / data_integrity_validator
decorators and the get_db / get_connection accessors), together with proofs of
the behavioural properties claimed for it.

Modelling conventions:
* A unit of work (the decorated callable) is abstracted by its observable
  outcome per attempt: it returns a value, raises RollbackException, or raises
  some other exception.
* transaction.commit() is abstracted by its outcome per attempt: success,
  ReadConflictError, ConflictError, StorageTransactionError (with or without
  the "Duplicate tpc_begin calls for same transaction" message), or another
  exception.
* The engine's externally visible actions are recorded as an event trace:
  transaction begin / commit / abort, invocations of the unit of work with
  their attempt index, the jittered backoff sleep, and writes to the
  thread-local _context slot.
* random.random() is modelled by an arbitrary function jit : Nat -> Rat giving
  the draw of each attempt; the code sleeps random.random() * 0.2 seconds.
-/

/-- Python-level errors that can escape the engine, as they are distinguished
by the except clauses of db.py. -/
inductive PyErr
  | readConflict
  | writeConflict
  | storageTxDup
  | storageTxOther
  | rollbackExc
  | app (n : Nat)
  | dbNotInit
  | mainThread
deriving DecidableEq

/-- The context slot value; context_from_method (opennode.oms.zodb.extractors,
not part of the engine) is abstracted to an arbitrary value of this type. -/
abbrev Ctx := Nat

/-- Values flowing through the engine.  prim models primitives, persistentObj
models an object owned by the ZODB store, proxied models the detached proxy
produced by make_persistent_proxy, rollbackValue models the RollbackValue
wrapper class of db.py. -/
inductive PyVal
  | prim (n : Nat)
  | persistentObj (n : Nat)
  | proxied (n : Nat) (ctx : Ctx)
  | rollbackValue (v : PyVal)
deriving DecidableEq

/-- isinstance(result, RollbackValue) -/
def PyVal.isRB : PyVal → Bool
  | .rollbackValue _ => true
  | _ => false

/-- result = result.value for a RollbackValue; identity otherwise. -/
def PyVal.unRB : PyVal → PyVal
  | .rollbackValue w => w
  | v => v

/-- Whether a value is the detached proxy form. -/
def PyVal.isDetached : PyVal → Bool
  | .proxied _ _ => true
  | _ => false

/-- Modelled from the spec: make_persistent_proxy lives in
opennode.oms.zodb.proxy, which is not among the provided sources.  Per spec
section 4.4, it detaches objects owned by the persistent store (producing a
structural copy tagged with the context), while primitives and
already-detached values pass through unchanged. -/
def make_persistent_proxy : PyVal → Ctx → PyVal
  | .persistentObj n, ctx => .proxied n ctx
  | v, _ => v

/-- Outcome of one invocation of the unit of work. -/
inductive FunRes
  | ok (v : PyVal)
  | rollback
  | err (e : PyErr)
deriving DecidableEq

/-- Outcome of the transaction.commit() call of one attempt. -/
inductive CommitRes
  | ok
  | readConflict
  | writeConflict
  | dupTpc
  | storageOther
  | err (e : PyErr)
deriving DecidableEq

/-- Whether a commit outcome is one of the two conflict classes that the
write path's except clauses absorb (ReadConflictError / ConflictError). -/
def isConflictRes : CommitRes → Bool
  | .readConflict => true
  | .writeConflict => true
  | _ => false

/-- The error object bound by the conflict except clauses. -/
def conflictErrOf : CommitRes → PyErr
  | .readConflict => PyErr.readConflict
  | _ => PyErr.writeConflict

/-- Terminal result of a call into the engine: a returned value (none for the
bare return of the RollbackException handler) or a propagated error. -/
inductive Outcome
  | value (v : Option PyVal)
  | raised (e : PyErr)
deriving DecidableEq

/-- Whether the outcome hands a value back to the caller. -/
def Outcome.yieldsValue : Outcome → Bool
  | .value (some _) => true
  | _ => false

/-- Observable actions of the engine.  txCommitFail records a
transaction.commit() call that raised: per the transaction package, a failed
commit runs Transaction cleanup which calls abort and tpc_abort on every
joined resource manager, so a failed commit leaves no writes pending. -/
inductive Ev
  | ctxSet
  | ctxClear
  | txBegin
  | funCall (i : Nat)
  | txCommitOk
  | txCommitFail
  | txAbort
  | sleep (d : ℚ)
deriving DecidableEq

/-- time.sleep(random.random() * 0.2) with draw q. -/
def jsleep (q : ℚ) : ℚ := q * (1 / 5)

/-- One iteration of the retry loop of run_in_tx (db.py lines 200-245):
begin, run the unit of work, and dispatch on the outcome exactly as the
try/except/else structure of the source does.  done means the loop ends with
this attempt (returning or raising); retry means the conflict handler ran
(sleep included) and the loop continues, carrying the bound error object. -/
inductive StepRes
  | done (evs : List Ev) (out : Outcome)
  | retry (evs : List Ev) (e : PyErr)
deriving DecidableEq

/-- Events of a step result. -/
def StepRes.evs : StepRes → List Ev
  | .done evs _ => evs
  | .retry evs _ => evs

def attemptOnce (ctx : Ctx) (i : Nat) (fres : FunRes) (cres : CommitRes) (q : ℚ) : StepRes :=
  match fres with
  | .rollback =>
      -- except RollbackException: transaction.abort(); return
      .done [.txBegin, .funCall i, .txAbort] (.value none)
  | .err e =>
      -- except: transaction.abort(); raise
      .done [.txBegin, .funCall i, .txAbort] (.raised e)
  | .ok v =>
      if v.isRB then
        -- isinstance(result, RollbackValue): abort, clear context, return proxy
        .done [.txBegin, .funCall i, .txAbort, .ctxClear]
          (.value (some (make_persistent_proxy v.unRB ctx)))
      else
        match cres with
        | .ok =>
            .done [.txBegin, .funCall i, .txCommitOk, .ctxClear]
              (.value (some (make_persistent_proxy v ctx)))
        | .readConflict =>
            .retry [.txBegin, .funCall i, .txCommitFail, .sleep (jsleep q)] PyErr.readConflict
        | .writeConflict =>
            .retry [.txBegin, .funCall i, .txCommitFail, .sleep (jsleep q)] PyErr.writeConflict
        | .dupTpc =>
            -- except StorageTransactionError: trace; raise  (no explicit abort)
            .done [.txBegin, .funCall i, .txCommitFail] (.raised PyErr.storageTxDup)
        | .storageOther =>
            .done [.txBegin, .funCall i, .txCommitFail] (.raised PyErr.storageTxOther)
        | .err e =>
            -- except: transaction.abort(); raise
            .done [.txBegin, .funCall i, .txCommitFail, .txAbort] (.raised e)

/-- The retry loop for i in xrange(0, retries + 1) of run_in_tx, followed by
raise e.  fuel is the number of loop iterations still allowed; when it
reaches 0 the loop has been exhausted and the last bound conflict error is
raised (the initial value of the error parameter is dead, because the loop
body always runs at least once). -/
def runAttempts (fr : Nat → FunRes) (cr : Nat → CommitRes) (jit : Nat → ℚ) (ctx : Ctx) :
    Nat → Nat → PyErr → List Ev × Outcome
  | _, 0, lastE => ([], .raised lastE)
  | i, fuel + 1, _ =>
      match attemptOnce ctx i (fr i) (cr i) (jit i) with
      | .done evs out => (evs, out)
      | .retry evs e =>
          let r := runAttempts fr cr jit ctx (i + 1) fuel e
          (evs ++ r.1, r.2)

/-- run_in_tx of the transact decorator (db.py lines 177-246).  retries is
the value read from the db / conflict_retries configuration entry; the unit
of work's behaviour at attempt i is fr i, the commit outcome at attempt i is
cr i, and jit i is the random.random() draw of attempt i. -/
def run_in_tx (dbInit : Bool) (retries : Nat) (ctx : Ctx)
    (fr : Nat → FunRes) (cr : Nat → CommitRes) (jit : Nat → ℚ) : List Ev × Outcome :=
  if dbInit then
    let r := runAttempts fr cr jit ctx 0 (retries + 1) PyErr.readConflict
    (Ev.ctxSet :: r.1, r.2)
  else ([], .raised PyErr.dbNotInit)

/-- run_in_tx of the _ro_transact decorator (db.py lines 281-297): set the
context slot, check the db handle, then begin, clear the context slot, run
the unit of work, optionally proxy the result, and always abort in the
finally clause.  RollbackException gets no special handling here and
propagates like any error. -/
def ro_run_in_tx (dbInit : Bool) (proxy : Bool) (ctx : Ctx) (fres : FunRes) :
    List Ev × Outcome :=
  if dbInit then
    ([Ev.ctxSet, Ev.txBegin, Ev.ctxClear, Ev.funCall 0, Ev.txAbort],
      match fres with
      | .ok v => .value (some (if proxy then make_persistent_proxy v ctx else v))
      | .rollback => .raised PyErr.rollbackExc
      | .err e => .raised e)
  else ([Ev.ctxSet], .raised PyErr.dbNotInit)

/-! ### Connection management (db.py lines 131-150) -/

/-- get_db: raises if the handle is uninitialized, or when called on the IO
thread outside testing mode. -/
def get_db (dbInit inIOThread testing : Bool) : Except PyErr Unit :=
  if !dbInit then .error PyErr.dbNotInit
  else if inIOThread && !testing then .error PyErr.mainThread
  else .ok ()

/-- get_connection: its own main-thread guard (skipped when
accept_main_thread is passed), then the thread-local cache _connection.x;
on a miss the connection get_db().open() would produce is written to the
cache.  cached is the calling thread's slot before the call; the returned
pair is the connection handed back and the slot after the call.  fresh is
the connection a cache miss would open. -/
def get_connection (accept_main_thread dbInit inIOThread testing : Bool)
    (cached : Option Nat) (fresh : Nat) : Except PyErr (Nat × Option Nat) :=
  if !accept_main_thread && inIOThread && !testing then .error PyErr.mainThread
  else
    match cached with
    | some c => .ok (c, some c)
    | none =>
        match get_db dbInit inIOThread testing with
        | .error e => .error e
        | .ok _ => .ok (fresh, some fresh)

/-! ### Broadcast validator (db.py lines 309-380) -/

/-- Observable actions of the data_integrity_validator runs, tagged with the
executing thread. -/
inductive VEv
  | vBegin (t : Nat)
  | vRun (t : Nat)
  | vLogPass (t : Nat)
  | vLogFail (t : Nat)
  | vAbort (t : Nat)
deriving DecidableEq

/-- run_in_tx of data_integrity_validator, executed on thread t with the
_done_threads set done: begin; skip if the thread already ran the check;
otherwise run it, logging PASSED or FAILED (all exceptions are swallowed);
finally abort and add the thread to _done_threads. -/
def validator_task (check : Nat → Bool) (done : List Nat) (t : Nat) : List VEv × List Nat :=
  if done.contains t then ([.vBegin t, .vAbort t], done)
  else if check t then ([.vBegin t, .vRun t, .vLogPass t, .vAbort t], t :: done)
  else ([.vBegin t, .vRun t, .vLogFail t, .vAbort t], t :: done)

/-- The queued tasks executed one after another; deferToThreadPool does not
pin a task to a given pool thread, so the thread executing each task is part
of the model's input. -/
def run_validator_tasks (check : Nat → Bool) : List Nat → List Nat → List VEv × List Nat
  | [], done => ([], done)
  | t :: ts, done =>
      let r := validator_task check done t
      let rest := run_validator_tasks check ts r.2
      (r.1 ++ rest.1, rest.2)

/-- The executing threads of the tasks the wrapper queues: one task per
waiter not already in _done_threads (db.py lines 371-375), the k-th queued
task being picked up by pool thread exec k. -/
def queued_threads (waiters done0 : List Nat) (exec : Nat → Nat) : List Nat :=
  (List.range (waiters.filter (fun t => !done0.contains t)).length).map exec

/-- The wrapper of data_integrity_validator: under _testing it runs nothing
and returns None; otherwise it queues one task per not-yet-done waiter and
the DeferredList collects their results. -/
def data_integrity_validator (testing : Bool) (waiters done0 : List Nat)
    (exec : Nat → Nat) (check : Nat → Bool) : Option (List VEv × List Nat) :=
  if testing then none
  else some (run_validator_tasks check (queued_threads waiters done0 exec) done0)

/-! ### Trace observations -/

/-- Is the event an invocation of the unit of work? -/
def isFunCall : Ev → Bool
  | .funCall _ => true
  | _ => false

/-- Number of invocations of the unit of work in a trace. -/
def countFunCalls (evs : List Ev) : Nat := (evs.filter isFunCall).length

/-- Transaction-pending automaton: begin opens a transaction; an explicit
abort, a successful commit, or a failed commit (whose cleanup aborts every
joined resource manager) leaves nothing pending. -/
def pendingStep (p : Bool) : Ev → Bool
  | .txBegin => true
  | .txAbort => false
  | .txCommitOk => false
  | .txCommitFail => false
  | _ => p

/-- Whether a transaction is still pending after the trace. -/
def pendingAfter (evs : List Ev) : Bool := evs.foldl pendingStep false

/-- Thread-local _context slot automaton. -/
def ctxStep (p : Bool) : Ev → Bool
  | .ctxSet => true
  | .ctxClear => false
  | _ => p

/-- Whether the _context slot still holds a context after the trace. -/
def ctxSetAfter (evs : List Ev) : Bool := evs.foldl ctxStep false

/-- Count of a given validator event in a trace. -/
def countV (e : VEv) (l : List VEv) : Nat := (l.filter (fun x => x = e)).length

/-- Count of validator events satisfying a predicate. -/
def countIf (p : VEv → Bool) (l : List VEv) : Nat := (l.filter p).length

def isVBegin : VEv → Bool
  | .vBegin _ => true
  | _ => false

def isVAbort : VEv → Bool
  | .vAbort _ => true
  | _ => false

/-! ### Helper lemmas about a single attempt -/

theorem countFunCalls_append (a b : List Ev) :
    countFunCalls (a ++ b) = countFunCalls a + countFunCalls b := by
  simp [countFunCalls, List.filter_append]

theorem attemptOnce_funCalls (ctx : Ctx) (i : Nat) (fres : FunRes) (cres : CommitRes) (q : ℚ) :
    countFunCalls (attemptOnce ctx i fres cres q).evs = 1 := by
  cases fres with
  | rollback => rfl
  | err e => rfl
  | ok v =>
    by_cases hv : v.isRB
    · simp [attemptOnce, hv, StepRes.evs, countFunCalls, isFunCall]
    · cases cres <;>
        simp [attemptOnce, hv, StepRes.evs, countFunCalls, isFunCall]

theorem attemptOnce_pending (ctx : Ctx) (i : Nat) (fres : FunRes) (cres : CommitRes) (q : ℚ)
    (p : Bool) : List.foldl pendingStep p (attemptOnce ctx i fres cres q).evs = false := by
  cases fres with
  | rollback => rfl
  | err e => rfl
  | ok v =>
    by_cases hv : v.isRB
    · simp [attemptOnce, hv, StepRes.evs, pendingStep]
    · cases cres <;> simp [attemptOnce, hv, StepRes.evs, pendingStep]

theorem attemptOnce_ctx_done (ctx : Ctx) (i : Nat) (fres : FunRes) (cres : CommitRes) (q : ℚ)
    (evs : List Ev) (out : Outcome)
    (h : attemptOnce ctx i fres cres q = .done evs out) :
    List.foldl ctxStep true evs = !out.yieldsValue := by
  cases fres with
  | rollback =>
    simp only [attemptOnce] at h
    cases h.symm
    rfl
  | err e =>
    simp only [attemptOnce] at h
    cases h.symm
    rfl
  | ok v =>
    by_cases hv : v.isRB
    · simp only [attemptOnce, hv, if_true] at h
      cases h.symm
      rfl
    · cases cres <;> simp only [attemptOnce, hv, if_false, Bool.false_eq_true] at h <;>
        first
          | (cases h.symm; rfl)
          | cases h

theorem attemptOnce_ctx_retry (ctx : Ctx) (i : Nat) (fres : FunRes) (cres : CommitRes) (q : ℚ)
    (evs : List Ev) (e : PyErr)
    (h : attemptOnce ctx i fres cres q = .retry evs e) :
    List.foldl ctxStep true evs = true := by
  cases fres with
  | rollback => cases h
  | err e' => cases h
  | ok v =>
    by_cases hv : v.isRB
    · simp only [attemptOnce, hv, if_true] at h
      cases h
    · cases cres <;> simp only [attemptOnce, hv, if_false, Bool.false_eq_true] at h <;>
        first
          | (cases h.symm; rfl)
          | cases h

theorem attemptOnce_conflict (ctx : Ctx) (i : Nat) (v : PyVal) (cres : CommitRes) (q : ℚ)
    (hv : v.isRB = false) (hc : isConflictRes cres = true) :
    attemptOnce ctx i (.ok v) cres q =
      .retry [.txBegin, .funCall i, .txCommitFail, .sleep (jsleep q)] (conflictErrOf cres) := by
  cases cres <;> simp_all [attemptOnce, isConflictRes, conflictErrOf]

/-! ### Helper lemmas about the retry loop -/

theorem runAttempts_funCalls (fr : Nat → FunRes) (cr : Nat → CommitRes) (jit : Nat → ℚ)
    (ctx : Ctx) : ∀ (fuel i : Nat) (lastE : PyErr),
    countFunCalls (runAttempts fr cr jit ctx i fuel lastE).1 ≤ fuel := by
  intro fuel
  induction fuel with
  | zero => intro i lastE; simp [runAttempts, countFunCalls]
  | succ f ih =>
    intro i lastE
    have ha := attemptOnce_funCalls ctx i (fr i) (cr i) (jit i)
    cases h : attemptOnce ctx i (fr i) (cr i) (jit i) with
    | done evs out =>
      rw [h] at ha
      simp only [StepRes.evs] at ha
      simp only [runAttempts, h]
      omega
    | retry evs e =>
      rw [h] at ha
      simp only [StepRes.evs] at ha
      simp only [runAttempts, h, countFunCalls_append]
      have := ih (i + 1) e
      omega

theorem runAttempts_pending (fr : Nat → FunRes) (cr : Nat → CommitRes) (jit : Nat → ℚ)
    (ctx : Ctx) : ∀ (fuel i : Nat) (lastE : PyErr),
    List.foldl pendingStep false (runAttempts fr cr jit ctx i fuel lastE).1 = false := by
  intro fuel
  induction fuel with
  | zero => intro i lastE; rfl
  | succ f ih =>
    intro i lastE
    cases h : attemptOnce ctx i (fr i) (cr i) (jit i) with
    | done evs out =>
      have ha := attemptOnce_pending ctx i (fr i) (cr i) (jit i) false
      rw [h] at ha
      simpa [runAttempts, h] using ha
    | retry evs e =>
      have ha := attemptOnce_pending ctx i (fr i) (cr i) (jit i) false
      rw [h] at ha
      simp only [StepRes.evs] at ha
      simp only [runAttempts, h, List.foldl_append, ha]
      exact ih (i + 1) e

theorem runAttempts_ctx (fr : Nat → FunRes) (cr : Nat → CommitRes) (jit : Nat → ℚ)
    (ctx : Ctx) : ∀ (fuel i : Nat) (lastE : PyErr),
    List.foldl ctxStep true (runAttempts fr cr jit ctx i fuel lastE).1 =
      !(runAttempts fr cr jit ctx i fuel lastE).2.yieldsValue := by
  intro fuel
  induction fuel with
  | zero => intro i lastE; rfl
  | succ f ih =>
    intro i lastE
    cases h : attemptOnce ctx i (fr i) (cr i) (jit i) with
    | done evs out =>
      have ha := attemptOnce_ctx_done ctx i (fr i) (cr i) (jit i) evs out h
      simpa [runAttempts, h] using ha
    | retry evs e =>
      have ha := attemptOnce_ctx_retry ctx i (fr i) (cr i) (jit i) evs e h
      simp only [runAttempts, h, List.foldl_append, ha]
      exact ih (i + 1) e

theorem runAttempts_allConflict (fr : Nat → FunRes) (cr : Nat → CommitRes) (jit : Nat → ℚ)
    (ctx : Ctx) (v : Nat → PyVal)
    (hfr : ∀ j, fr j = FunRes.ok (v j)) (hnrb : ∀ j, (v j).isRB = false)
    (hc : ∀ j, isConflictRes (cr j) = true) :
    ∀ (fuel i : Nat) (lastE : PyErr),
    (runAttempts fr cr jit ctx i (fuel + 1) lastE).2 = Outcome.raised (conflictErrOf (cr (i + fuel))) := by
  intro fuel
  induction fuel with
  | zero =>
    intro i lastE
    have h := attemptOnce_conflict ctx i (v i) (cr i) (jit i) (hnrb i) (hc i)
    rw [← hfr i] at h
    simp [runAttempts, h]
  | succ f ih =>
    intro i lastE
    have h := attemptOnce_conflict ctx i (v i) (cr i) (jit i) (hnrb i) (hc i)
    rw [← hfr i] at h
    have hrec := ih (i + 1) (conflictErrOf (cr i))
    simp only [runAttempts, h]
    simp only [runAttempts] at hrec
    rw [hrec]
    have harith : i + 1 + f = i + (f + 1) := by omega
    rw [harith]

/-! ### Claim theorems: transaction hygiene and the read-only path -/

/-- C3: every call into the engine, write path or read-only path, terminates
with no transaction left pending: every explicit raise in db.py follows a
transaction.abort(), and a failed commit aborts its resource managers, so in
particular every propagated error leaves no uncommitted state behind.  Proved
unconditionally, hence for every raised outcome. -/
theorem engine_no_pending_transaction (d : Bool) (retries : Nat) (ctx : Ctx)
    (fr : Nat → FunRes) (cr : Nat → CommitRes) (jit : Nat → ℚ)
    (d2 proxy : Bool) (ctx2 : Ctx) (fres : FunRes) :
    pendingAfter (run_in_tx d retries ctx fr cr jit).1 = false ∧
    pendingAfter (ro_run_in_tx d2 proxy ctx2 fres).1 = false := by
  constructor
  · cases d with
    | false => rfl
    | true =>
      have h := runAttempts_pending fr cr jit ctx (retries + 1) 0 PyErr.readConflict
      simpa [run_in_tx, pendingAfter, pendingStep] using h
  · cases d2 with
    | false => rfl
    | true => rfl

/-- C4: the read-only path runs the unit of work exactly once inside a
transaction that is aborted afterwards whatever the outcome, performs no
sleep and no retry, and lets a ConflictError raised during the attempt
propagate to the caller. -/
theorem ro_transact_single_attempt_always_aborted (proxy : Bool) (ctx : Ctx) (fres : FunRes) :
    (ro_run_in_tx true proxy ctx fres).1 =
      [Ev.ctxSet, Ev.txBegin, Ev.ctxClear, Ev.funCall 0, Ev.txAbort] ∧
    countFunCalls (ro_run_in_tx true proxy ctx fres).1 = 1 ∧
    (ro_run_in_tx true proxy ctx (FunRes.err PyErr.readConflict)).2 =
      Outcome.raised PyErr.readConflict := by
  exact ⟨rfl, rfl, rfl⟩

/-- C5: on the write path, a RollbackException from the unit of work aborts
the transaction and returns no result and no error; a returned RollbackValue
aborts the transaction but still yields the wrapped value (in detached form)
to the caller. -/
theorem transact_rollback_signals (retries : Nat) (ctx : Ctx)
    (cr : Nat → CommitRes) (jit : Nat → ℚ) (w : PyVal) :
    run_in_tx true retries ctx (fun _ => FunRes.rollback) cr jit =
      ([Ev.ctxSet, Ev.txBegin, Ev.funCall 0, Ev.txAbort], Outcome.value none) ∧
    run_in_tx true retries ctx (fun _ => FunRes.ok (PyVal.rollbackValue w)) cr jit =
      ([Ev.ctxSet, Ev.txBegin, Ev.funCall 0, Ev.txAbort, Ev.ctxClear],
        Outcome.value (some (make_persistent_proxy w ctx))) := by
  constructor
  · simp [run_in_tx, runAttempts, attemptOnce]
  · simp [run_in_tx, runAttempts, attemptOnce, PyVal.isRB, PyVal.unRB]

/-- C9: ro_transact with proxy=False hands the unit of work's return value
back as-is, with no detachment step, so a persistent object is returned
undetached; the default proxy=True path always applies make_persistent_proxy,
detaching persistent objects. -/
theorem ro_transact_proxy_flag (ctx : Ctx) (v : PyVal) (n : Nat) :
    (ro_run_in_tx true false ctx (FunRes.ok v)).2 = Outcome.value (some v) ∧
    (ro_run_in_tx true true ctx (FunRes.ok v)).2 =
      Outcome.value (some (make_persistent_proxy v ctx)) ∧
    (ro_run_in_tx true false ctx (FunRes.ok (PyVal.persistentObj n))).2 =
      Outcome.value (some (PyVal.persistentObj n)) ∧
    (PyVal.persistentObj n).isDetached = false ∧
    (ro_run_in_tx true true ctx (FunRes.ok (PyVal.persistentObj n))).2 =
      Outcome.value (some (PyVal.proxied n ctx)) ∧
    (PyVal.proxied n ctx).isDetached = true := by
  refine ⟨rfl, rfl, rfl, rfl, ?_, rfl⟩
  simp [ro_run_in_tx, make_persistent_proxy]

/-- C10: under the testing configuration the data_integrity_validator wrapper
runs no check on any connection and produces no deferred list: it returns
None. -/
theorem validator_noop_in_testing (waiters done0 : List Nat)
    (exec : Nat → Nat) (check : Nat → Bool) :
    data_integrity_validator true waiters done0 exec check = none := rfl

/-- C6 counterexample: a write transaction whose unit of work raises
RollbackException reaches its terminal outcome (value handed back: none)
with the thread-local context slot still set — db.py clears _context.x only
on the two value-yielding paths, not in the RollbackException or error
handlers. -/
theorem transact_context_left_set_cex :
    (run_in_tx true 0 7 (fun _ => FunRes.rollback) (fun _ => CommitRes.ok) (fun _ => 0)).2 =
      Outcome.value none ∧
    ctxSetAfter (run_in_tx true 0 7 (fun _ => FunRes.rollback) (fun _ => CommitRes.ok)
      (fun _ => 0)).1 = true := by
  exact ⟨rfl, rfl⟩

/-- C6 amended: on the write path the context slot is cleared before the
engine hands control back exactly when the call yields a value (normal
commit, or a RollbackValue); on the rollback-and-discard path, on every
error path and on retry exhaustion it stays set.  On the read-only path the
slot is cleared right after transaction begin, hence on every outcome of the
unit of work. -/
theorem context_cleared_iff_value_yielded (retries : Nat) (ctx : Ctx)
    (fr : Nat → FunRes) (cr : Nat → CommitRes) (jit : Nat → ℚ)
    (proxy : Bool) (ctx2 : Ctx) (fres : FunRes) :
    ctxSetAfter (run_in_tx true retries ctx fr cr jit).1 =
      !((run_in_tx true retries ctx fr cr jit).2.yieldsValue) ∧
    ctxSetAfter (ro_run_in_tx true proxy ctx2 fres).1 = false := by
  constructor
  · have h := runAttempts_ctx fr cr jit ctx (retries + 1) 0 PyErr.readConflict
    simpa [run_in_tx, ctxSetAfter, ctxStep] using h
  · rfl

/-! ### Claim theorems: retry budget and error classification -/

/-- C1: a write transaction invokes its unit of work at most retries + 1
times, where retries is the db / conflict_retries configuration value passed
to run_in_tx; and when every attempt's commit ends in a conflict, the last
bound conflict error is raised to the caller — the call neither returns
silently nor loops. -/
theorem transact_attempts_bounded_and_exhaustion (retries : Nat) (ctx : Ctx)
    (fr : Nat → FunRes) (cr : Nat → CommitRes) (jit : Nat → ℚ) (v : Nat → PyVal) :
    countFunCalls (run_in_tx true retries ctx fr cr jit).1 ≤ retries + 1 ∧
    ((∀ j, fr j = FunRes.ok (v j)) → (∀ j, (v j).isRB = false) →
      (∀ j, isConflictRes (cr j) = true) →
      (run_in_tx true retries ctx fr cr jit).2 =
        Outcome.raised (conflictErrOf (cr retries))) := by
  constructor
  · have h := runAttempts_funCalls fr cr jit ctx (retries + 1) 0 PyErr.readConflict
    simpa [run_in_tx, countFunCalls, isFunCall] using h
  · intro h1 h2 h3
    have h := runAttempts_allConflict fr cr jit ctx v h1 h2 h3 retries 0 PyErr.readConflict
    simpa [run_in_tx] using h

/-- Witness for C1 at a concrete input: budget 1 retry, every commit a write
conflict. -/
theorem transact_attempts_bounded_and_exhaustion_inst :
    countFunCalls (run_in_tx true 1 0 (fun _ => FunRes.ok (PyVal.prim 5))
      (fun _ => CommitRes.writeConflict) (fun _ => 0)).1 ≤ 2 ∧
    (run_in_tx true 1 0 (fun _ => FunRes.ok (PyVal.prim 5))
      (fun _ => CommitRes.writeConflict) (fun _ => 0)).2 =
      Outcome.raised PyErr.writeConflict :=
  ⟨(transact_attempts_bounded_and_exhaustion 1 0 (fun _ => FunRes.ok (PyVal.prim 5))
      (fun _ => CommitRes.writeConflict) (fun _ => 0) (fun _ => PyVal.prim 5)).1,
   (transact_attempts_bounded_and_exhaustion 1 0 (fun _ => FunRes.ok (PyVal.prim 5))
      (fun _ => CommitRes.writeConflict) (fun _ => 0) (fun _ => PyVal.prim 5)).2
     (fun _ => rfl) (fun _ => rfl) (fun _ => rfl)⟩

/-- C2: classification of write-path failures.  A conflict raised by commit
leads to a failed commit (whose cleanup aborts the attempt's writes), a
jittered sleep of random.random() * 0.2 — nonnegative and below 0.2 s — and
continuation of the loop at the incremented attempt index.  A
StorageTransactionError from duplicate tpc_begin calls (an object attached
to one connection used under another connection's transaction) propagates
immediately after the failed commit, with no retry and nothing pending.  An
arbitrary error raised by the unit of work aborts the transaction and
propagates immediately, with no retry. -/
theorem transact_error_classification (retries : Nat) (ctx : Ctx)
    (fr : Nat → FunRes) (cr : Nat → CommitRes) (jit : Nat → ℚ) (v : PyVal) (e : PyErr) :
    (fr 0 = FunRes.ok v → v.isRB = false → isConflictRes (cr 0) = true →
      0 ≤ jit 0 → jit 0 < 1 →
      run_in_tx true (retries + 1) ctx fr cr jit =
        (Ev.ctxSet :: Ev.txBegin :: Ev.funCall 0 :: Ev.txCommitFail ::
           Ev.sleep (jsleep (jit 0)) ::
           (runAttempts fr cr jit ctx 1 (retries + 1) (conflictErrOf (cr 0))).1,
         (runAttempts fr cr jit ctx 1 (retries + 1) (conflictErrOf (cr 0))).2) ∧
      0 ≤ jsleep (jit 0) ∧ jsleep (jit 0) < 1 / 5) ∧
    (fr 0 = FunRes.ok v → v.isRB = false → cr 0 = CommitRes.dupTpc →
      (run_in_tx true retries ctx fr cr jit).2 = Outcome.raised PyErr.storageTxDup ∧
      countFunCalls (run_in_tx true retries ctx fr cr jit).1 = 1 ∧
      pendingAfter (run_in_tx true retries ctx fr cr jit).1 = false) ∧
    (fr 0 = FunRes.err e →
      run_in_tx true retries ctx fr cr jit =
        ([Ev.ctxSet, Ev.txBegin, Ev.funCall 0, Ev.txAbort], Outcome.raised e)) := by
  refine ⟨?_, ?_, ?_⟩
  · intro h1 h2 h3 h4 h5
    have hA := attemptOnce_conflict ctx 0 v (cr 0) (jit 0) h2 h3
    rw [← h1] at hA
    refine ⟨?_, ?_, ?_⟩
    · cases hfuel : retries + 1 with
      | zero => omega
      | succ f =>
        simp [run_in_tx, runAttempts, hA, hfuel]
    · exact mul_nonneg h4 (by norm_num)
    · have h6 : jit 0 * (1 / 5) < 1 * (1 / 5) :=
        mul_lt_mul_of_pos_right h5 (by norm_num)
      simpa [jsleep] using h6
  · intro h1 h2 h3
    have hA : attemptOnce ctx 0 (fr 0) (cr 0) (jit 0) =
        StepRes.done [Ev.txBegin, Ev.funCall 0, Ev.txCommitFail]
          (Outcome.raised PyErr.storageTxDup) := by
      rw [h1, h3]
      simp [attemptOnce, h2]
    refine ⟨?_, ?_, ?_⟩ <;>
      simp [run_in_tx, runAttempts, hA, countFunCalls, isFunCall, pendingAfter, pendingStep]
  · intro h1
    have hA : attemptOnce ctx 0 (fr 0) (cr 0) (jit 0) =
        StepRes.done [Ev.txBegin, Ev.funCall 0, Ev.txAbort] (Outcome.raised e) := by
      rw [h1]
      rfl
    simp [run_in_tx, runAttempts, hA]

/-- Witness for C2, one instantiation per classification branch. -/
theorem transact_error_classification_inst :
    (0 ≤ jsleep ((1 : ℚ) / 2) ∧ jsleep ((1 : ℚ) / 2) < 1 / 5) ∧
    (run_in_tx true 0 0 (fun _ => FunRes.ok (PyVal.prim 2)) (fun _ => CommitRes.dupTpc)
      (fun _ => 0)).2 = Outcome.raised PyErr.storageTxDup ∧
    run_in_tx true 0 0 (fun _ => FunRes.err (PyErr.app 9)) (fun _ => CommitRes.ok)
      (fun _ => 0) =
      ([Ev.ctxSet, Ev.txBegin, Ev.funCall 0, Ev.txAbort], Outcome.raised (PyErr.app 9)) := by
  refine ⟨⟨?_, ?_⟩, ?_, ?_⟩
  · exact ((transact_error_classification 0 0 (fun _ => FunRes.ok (PyVal.prim 2))
      (fun _ => CommitRes.readConflict) (fun _ => 1 / 2) (PyVal.prim 2) (PyErr.app 9)).1
      rfl rfl rfl (by norm_num) (by norm_num)).2.1
  · exact ((transact_error_classification 0 0 (fun _ => FunRes.ok (PyVal.prim 2))
      (fun _ => CommitRes.readConflict) (fun _ => 1 / 2) (PyVal.prim 2) (PyErr.app 9)).1
      rfl rfl rfl (by norm_num) (by norm_num)).2.2
  · exact (((transact_error_classification 0 0 (fun _ => FunRes.ok (PyVal.prim 2))
      (fun _ => CommitRes.dupTpc) (fun _ => 0) (PyVal.prim 2) (PyErr.app 9)).2.1)
      rfl rfl rfl).1
  · exact ((transact_error_classification 0 0 (fun _ => FunRes.err (PyErr.app 9))
      (fun _ => CommitRes.ok) (fun _ => 0) (PyVal.prim 2) (PyErr.app 9)).2.2) rfl

/-! ### Claim theorems: connection access guards -/

/-- C7 counterexample: with accept_main_thread=True and a connection already
cached in the calling thread's slot, get_connection called on the IO thread
outside testing mode returns the cached connection instead of raising. -/
theorem get_connection_main_thread_cached_cex :
    get_connection true true true false (some 5) 9 = Except.ok (5, some 5) := rfl

/-- C7 amended: outside testing mode, get_db always raises on the IO thread,
and so does get_connection unless accept_main_thread is passed; with
accept_main_thread and no cached connection it still raises (through
get_db), but a cached connection is returned.  Off the IO thread the calls
are idempotent per thread: a cached connection is always returned unchanged,
and a first call opens and caches the connection lazily, after which later
calls return that same connection. -/
theorem db_access_guard_and_idempotence (d am t : Bool) (c fresh fresh2 : Nat)
    (cached : Option Nat) :
    get_db d true false = Except.error (if d then PyErr.mainThread else PyErr.dbNotInit) ∧
    get_connection false d true false cached fresh = Except.error PyErr.mainThread ∧
    get_connection true d true false none fresh =
      Except.error (if d then PyErr.mainThread else PyErr.dbNotInit) ∧
    get_connection am d false t (some c) fresh = Except.ok (c, some c) ∧
    get_connection am true false t none fresh = Except.ok (fresh, some fresh) ∧
    get_connection am true false t (some fresh) fresh2 = Except.ok (fresh, some fresh) := by
  cases d <;> cases am <;> cases t <;>
    simp [get_db, get_connection]

/-! ### Helper lemmas about the broadcast validator -/

theorem countV_append (e : VEv) (a b : List VEv) :
    countV e (a ++ b) = countV e a + countV e b := by
  simp [countV, List.filter_append]

theorem countIf_append (p : VEv → Bool) (a b : List VEv) :
    countIf p (a ++ b) = countIf p a + countIf p b := by
  simp [countIf, List.filter_append]

theorem contains_cons_self (u : Nat) (l : List Nat) : (u :: l).contains u = true := by
  simp

theorem contains_cons_of_contains (u t : Nat) (l : List Nat) (h : l.contains t = true) :
    (u :: l).contains t = true := by
  simp at h ⊢
  exact Or.inr h

theorem countV_run_skipevs (t u : Nat) :
    countV (VEv.vRun t) [VEv.vBegin u, VEv.vAbort u] = 0 := by
  simp [countV]

theorem countV_fail_skipevs (t u : Nat) :
    countV (VEv.vLogFail t) [VEv.vBegin u, VEv.vAbort u] = 0 := by
  simp [countV]

theorem countV_run_passevs (t u : Nat) :
    countV (VEv.vRun t) [VEv.vBegin u, VEv.vRun u, VEv.vLogPass u, VEv.vAbort u] =
      if u = t then 1 else 0 := by
  by_cases h : u = t <;> simp [countV, h]

theorem countV_fail_passevs (t u : Nat) :
    countV (VEv.vLogFail t) [VEv.vBegin u, VEv.vRun u, VEv.vLogPass u, VEv.vAbort u] = 0 := by
  simp [countV]

theorem countV_run_failevs (t u : Nat) :
    countV (VEv.vRun t) [VEv.vBegin u, VEv.vRun u, VEv.vLogFail u, VEv.vAbort u] =
      if u = t then 1 else 0 := by
  by_cases h : u = t <;> simp [countV, h]

theorem countV_fail_failevs (t u : Nat) :
    countV (VEv.vLogFail t) [VEv.vBegin u, VEv.vRun u, VEv.vLogFail u, VEv.vAbort u] =
      if u = t then 1 else 0 := by
  by_cases h : u = t <;> simp [countV, h]

theorem rvt_skip (check : Nat → Bool) :
    ∀ (ts done : List Nat) (t : Nat), done.contains t = true →
      countV (VEv.vRun t) (run_validator_tasks check ts done).1 = 0 ∧
      countV (VEv.vLogFail t) (run_validator_tasks check ts done).1 = 0 ∧
      (run_validator_tasks check ts done).2.contains t = true := by
  intro ts
  induction ts with
  | nil =>
    intro done t h
    exact ⟨rfl, rfl, h⟩
  | cons u ts ih =>
    intro done t h
    by_cases hu : done.contains u = true
    · have hrec := ih done t h
      simp only [run_validator_tasks, validator_task, hu, if_true]
      refine ⟨?_, ?_, hrec.2.2⟩
      · rw [countV_append, countV_run_skipevs, hrec.1]
      · rw [countV_append, countV_fail_skipevs, hrec.2.1]
    · have hne : u ≠ t := by
        intro he
        rw [he] at hu
        exact hu h
      have hd : (u :: done).contains t = true := contains_cons_of_contains u t done h
      have hrec := ih (u :: done) t hd
      by_cases hck : check u = true
      · simp only [run_validator_tasks, validator_task, hu, if_false, hck, if_true,
          Bool.false_eq_true]
        refine ⟨?_, ?_, hrec.2.2⟩
        · rw [countV_append, countV_run_passevs, if_neg hne, hrec.1]
        · rw [countV_append, countV_fail_passevs, hrec.2.1]
      · simp only [run_validator_tasks, validator_task, hu, hck, if_false,
          Bool.false_eq_true]
        refine ⟨?_, ?_, hrec.2.2⟩
        · rw [countV_append, countV_run_failevs, if_neg hne, hrec.1]
        · rw [countV_append, countV_fail_failevs, if_neg hne, hrec.2.1]

theorem rvt_at_most_once (check : Nat → Bool) :
    ∀ (ts done : List Nat) (t : Nat),
      countV (VEv.vRun t) (run_validator_tasks check ts done).1 ≤ 1 := by
  intro ts
  induction ts with
  | nil => intro done t; exact Nat.zero_le 1
  | cons u ts ih =>
    intro done t
    by_cases hu : done.contains u = true
    · simp only [run_validator_tasks, validator_task, hu, if_true]
      rw [countV_append, countV_run_skipevs]
      simpa using ih done t
    · by_cases hut : u = t
      · subst hut
        have hd : (u :: done).contains u = true := contains_cons_self u done
        have hskip := (rvt_skip check ts (u :: done) u hd).1
        by_cases hck : check u = true
        · simp only [run_validator_tasks, validator_task, hu, hck, if_true,
            Bool.false_eq_true, if_false]
          rw [countV_append, countV_run_passevs, if_pos rfl, hskip]
        · simp only [run_validator_tasks, validator_task, hu, hck,
            Bool.false_eq_true, if_false]
          rw [countV_append, countV_run_failevs, if_pos rfl, hskip]
      · by_cases hck : check u = true
        · simp only [run_validator_tasks, validator_task, hu, hck, if_true,
            Bool.false_eq_true, if_false]
          rw [countV_append, countV_run_passevs, if_neg hut]
          simpa using ih (u :: done) t
        · simp only [run_validator_tasks, validator_task, hu, hck,
            Bool.false_eq_true, if_false]
          rw [countV_append, countV_run_failevs, if_neg hut]
          simpa using ih (u :: done) t

theorem countIf_begin_skipevs (u : Nat) :
    countIf isVBegin [VEv.vBegin u, VEv.vAbort u] = 1 := by
  simp [countIf, isVBegin]

theorem countIf_abort_skipevs (u : Nat) :
    countIf isVAbort [VEv.vBegin u, VEv.vAbort u] = 1 := by
  simp [countIf, isVAbort]

theorem countIf_begin_passevs (u : Nat) :
    countIf isVBegin [VEv.vBegin u, VEv.vRun u, VEv.vLogPass u, VEv.vAbort u] = 1 := by
  simp [countIf, isVBegin]

theorem countIf_abort_passevs (u : Nat) :
    countIf isVAbort [VEv.vBegin u, VEv.vRun u, VEv.vLogPass u, VEv.vAbort u] = 1 := by
  simp [countIf, isVAbort]

theorem countIf_begin_failevs (u : Nat) :
    countIf isVBegin [VEv.vBegin u, VEv.vRun u, VEv.vLogFail u, VEv.vAbort u] = 1 := by
  simp [countIf, isVBegin]

theorem countIf_abort_failevs (u : Nat) :
    countIf isVAbort [VEv.vBegin u, VEv.vRun u, VEv.vLogFail u, VEv.vAbort u] = 1 := by
  simp [countIf, isVAbort]

theorem rvt_begin_abort (check : Nat → Bool) :
    ∀ (ts done : List Nat),
      countIf isVBegin (run_validator_tasks check ts done).1 = ts.length ∧
      countIf isVAbort (run_validator_tasks check ts done).1 = ts.length := by
  intro ts
  induction ts with
  | nil => intro done; exact ⟨rfl, rfl⟩
  | cons u ts ih =>
    intro done
    by_cases hu : done.contains u = true
    · have hrec := ih done
      simp only [run_validator_tasks, validator_task, hu, if_true, List.length_cons]
      constructor
      · rw [countIf_append, countIf_begin_skipevs, hrec.1, Nat.add_comm]
      · rw [countIf_append, countIf_abort_skipevs, hrec.2, Nat.add_comm]
    · by_cases hck : check u = true
      · have hrec := ih (u :: done)
        simp only [run_validator_tasks, validator_task, hu, hck, if_true,
          Bool.false_eq_true, if_false, List.length_cons]
        constructor
        · rw [countIf_append, countIf_begin_passevs, hrec.1, Nat.add_comm]
        · rw [countIf_append, countIf_abort_passevs, hrec.2, Nat.add_comm]
      · have hrec := ih (u :: done)
        simp only [run_validator_tasks, validator_task, hu, hck,
          Bool.false_eq_true, if_false, List.length_cons]
        constructor
        · rw [countIf_append, countIf_begin_failevs, hrec.1, Nat.add_comm]
        · rw [countIf_append, countIf_abort_failevs, hrec.2, Nat.add_comm]

theorem rvt_all_run (check : Nat → Bool) :
    ∀ (ts done : List Nat), ts.Nodup → (∀ t ∈ ts, done.contains t = false) →
      ∀ t ∈ ts, countV (VEv.vRun t) (run_validator_tasks check ts done).1 = 1 ∧
        (check t = false →
          countV (VEv.vLogFail t) (run_validator_tasks check ts done).1 = 1) := by
  intro ts
  induction ts with
  | nil => intro done _ _ t ht; cases ht
  | cons u ts ih =>
    intro done hnd hnin t ht
    have hu : done.contains u = false := hnin u (List.mem_cons_self u ts)
    have hu' : ¬(done.contains u = true) := by
      rw [hu]
      exact Bool.false_ne_true
    rcases List.mem_cons.mp ht with he | hts
    · subst he
      have hd : (t :: done).contains t = true := contains_cons_self t done
      have hskip := rvt_skip check ts (t :: done) t hd
      by_cases hck : check t = true
      · simp only [run_validator_tasks, validator_task, hu', hck, if_true,
          Bool.false_eq_true, if_false]
        constructor
        · rw [countV_append, countV_run_passevs, if_pos rfl, hskip.1]
        · intro hcf
          exact absurd hcf (by decide)
      · simp only [run_validator_tasks, validator_task, hu', hck,
          Bool.false_eq_true, if_false]
        constructor
        · rw [countV_append, countV_run_failevs, if_pos rfl, hskip.1]
        · intro _
          rw [countV_append, countV_fail_failevs, if_pos rfl, hskip.2.1]
    · have hne : u ≠ t := by
        intro he
        rw [he] at hnd
        exact (List.nodup_cons.mp hnd).1 hts
      have hnin' : ∀ x ∈ ts, (u :: done).contains x = false := by
        intro x hx
        have hxu : x ≠ u := by
          intro he
          rw [he] at hx
          exact (List.nodup_cons.mp hnd).1 hx
        have h2 := hnin x (List.mem_cons_of_mem u hx)
        simp at h2 ⊢
        exact ⟨hxu, h2⟩
      have hrec := ih (u :: done) (List.nodup_cons.mp hnd).2 hnin' t hts
      by_cases hck : check u = true
      · simp only [run_validator_tasks, validator_task, hu', hck, if_true,
          Bool.false_eq_true, if_false]
        constructor
        · rw [countV_append, countV_run_passevs, if_neg hne, hrec.1]
        · intro hcf
          rw [countV_append, countV_fail_passevs, hrec.2 hcf]
      · simp only [run_validator_tasks, validator_task, hu', hck,
          Bool.false_eq_true, if_false]
        constructor
        · rw [countV_append, countV_run_failevs, if_neg hne, hrec.1]
        · intro hcf
          rw [countV_append, countV_fail_failevs, if_neg hne, hrec.2 hcf]

/-! ### Claim theorems: broadcast validator -/

/-- C8: outside testing mode the data_integrity_validator wrapper queues one
task per waiter not yet in _done_threads and the deferred list collects
every task: in the collected trace the check runs at most once per distinct
executing thread, threads already recorded as done run it zero times, every
task's transaction is begun and rolled back (begins = aborts = number of
tasks), and when the queued tasks land on distinct threads none of which is
done, every one of those threads runs the check exactly once and every
failing check is logged as a violation — a failure on one thread does not
prevent any other thread's check. -/
theorem validator_once_rollback_reporting (waiters done0 : List Nat)
    (exec : Nat → Nat) (check : Nat → Bool) :
    data_integrity_validator false waiters done0 exec check =
      some (run_validator_tasks check (queued_threads waiters done0 exec) done0) ∧
    (∀ t, countV (VEv.vRun t)
      (run_validator_tasks check (queued_threads waiters done0 exec) done0).1 ≤ 1) ∧
    (∀ t, done0.contains t = true →
      countV (VEv.vRun t)
        (run_validator_tasks check (queued_threads waiters done0 exec) done0).1 = 0) ∧
    countIf isVBegin (run_validator_tasks check (queued_threads waiters done0 exec) done0).1 =
      (queued_threads waiters done0 exec).length ∧
    countIf isVAbort (run_validator_tasks check (queued_threads waiters done0 exec) done0).1 =
      (queued_threads waiters done0 exec).length ∧
    ((queued_threads waiters done0 exec).Nodup →
      (∀ t ∈ queued_threads waiters done0 exec, done0.contains t = false) →
      ∀ t ∈ queued_threads waiters done0 exec,
        countV (VEv.vRun t)
          (run_validator_tasks check (queued_threads waiters done0 exec) done0).1 = 1 ∧
        (check t = false →
          countV (VEv.vLogFail t)
            (run_validator_tasks check (queued_threads waiters done0 exec) done0).1 = 1)) := by
  refine ⟨rfl, ?_, ?_, ?_, ?_, ?_⟩
  · intro t
    exact rvt_at_most_once check (queued_threads waiters done0 exec) done0 t
  · intro t h
    exact (rvt_skip check (queued_threads waiters done0 exec) done0 t h).1
  · exact (rvt_begin_abort check (queued_threads waiters done0 exec) done0).1
  · exact (rvt_begin_abort check (queued_threads waiters done0 exec) done0).2
  · intro hnd hnin
    exact rvt_all_run check (queued_threads waiters done0 exec) done0 hnd hnin

/-- Witness for C8: three idle workers 10, 20, 30 picked up by three
distinct threads, with the check failing on 20 and 30: three begins, three
aborts, each thread runs the check once, and both failures are logged. -/
theorem validator_once_rollback_reporting_inst :
    countV (VEv.vRun 20) (run_validator_tasks (fun t => decide (t = 10))
      (queued_threads [10, 20, 30] [] (fun k => 10 * (k + 1))) []).1 = 1 ∧
    countV (VEv.vLogFail 20) (run_validator_tasks (fun t => decide (t = 10))
      (queued_threads [10, 20, 30] [] (fun k => 10 * (k + 1))) []).1 = 1 ∧
    countV (VEv.vLogFail 30) (run_validator_tasks (fun t => decide (t = 10))
      (queued_threads [10, 20, 30] [] (fun k => 10 * (k + 1))) []).1 = 1 ∧
    countV (VEv.vRun 10) (run_validator_tasks (fun t => decide (t = 10))
      (queued_threads [10, 20, 30] [] (fun k => 10 * (k + 1))) []).1 ≤ 1 ∧
    countIf isVBegin (run_validator_tasks (fun t => decide (t = 10))
      (queued_threads [10, 20, 30] [] (fun k => 10 * (k + 1))) []).1 = 3 ∧
    countIf isVAbort (run_validator_tasks (fun t => decide (t = 10))
      (queued_threads [10, 20, 30] [] (fun k => 10 * (k + 1))) []).1 = 3 := by
  have H := validator_once_rollback_reporting [10, 20, 30] [] (fun k => 10 * (k + 1))
    (fun t => decide (t = 10))
  refine ⟨(H.2.2.2.2.2 (by decide) (by decide) 20 (by decide)).1,
    (H.2.2.2.2.2 (by decide) (by decide) 20 (by decide)).2 (by decide),
    (H.2.2.2.2.2 (by decide) (by decide) 30 (by decide)).2 (by decide),
    H.2.1 10, H.2.2.2.1, H.2.2.2.2.1⟩
